import Mathlib

/-!
Shallow embedding of the connection-orchestration core of the repository:
the Pure Storage FlashArray driver (src/cinder/volume/drivers/pure.py) and
the NetApp block-storage library whose behavior is fixed by its unit tests
(src/cinder/tests/volume/drivers/netapp/dataontap/test_block_base.py) and by
the specification, since block_base.py itself is not part of the source tree.

Python strings are modelled as Lean `String` (or `List Char` where character
level reasoning is needed); Python exceptions are modelled with `Except`;
remote collaborators (the array's HTTP responses, the fabric lookup service,
the local LUN cross-reference) are passed in explicitly as values or scripts.
-/

/-- Errors raised by the Pure driver.  `apiError code reason` models
`exception.PureAPIException(code=..., reason=...)` (pure.py); the `code`
keyword is absent for the "Response not in JSON" case, hence `Option Nat`.
`driverError reason` models `exception.PureDriverException(reason=...)`. -/
inductive PureErr where
  | apiError (code : Option Nat) (reason : String)
  | driverError (reason : String)
deriving DecidableEq, Repr

/-- One HTTP response from the array, as observed by
`FlashArray._http_request` (pure.py lines 357-398): a 200 response with a
content body whose Content-Type may or may not be JSON, a non-200 response
(`urllib2.HTTPError` with status code and body), or a transport-level
failure (`urllib2.URLError`). -/
inductive HttpResp where
  | ok (isJson : Bool) (content : String)
  | httpError (code : Nat) (body : String)
  | urlError
deriving DecidableEq, Repr

/-- Embedding of `FlashArray._http_request` (pure.py lines 357-398) for one
logical call.  Each attempt of the call consumes the head of `attempts`;
each `self._start_session()` performed by the 401 branch consumes the head
of `auths` (the outcome of that POST to auth/session); each
`self._choose_rest_version()` performed by the 450 branch consumes the head
of `negs` (the outcome of that negotiation).  `v` is the current
`self._rest_version`, `reestablish` the `reestablish_session` flag.  The
result is `none` when the response script is exhausted, otherwise the value
returned or the exception raised, paired with the final rest version. -/
def http_request : List HttpResp → List (Except PureErr Unit) →
    List (Except PureErr String) → String → Bool →
    Option (Except PureErr (String × String))
  | [], _, _, _, _ => none
  | HttpResp.ok isJson content :: _, _, _, v, _ =>
      if isJson then some (Except.ok (content, v))
      else some (Except.error (PureErr.apiError none
        ("Response not in JSON: " ++ content)))
  | HttpResp.httpError code body :: rest, auths, negs, v, reestablish =>
      if reestablish && code == 401 then
        match auths with
        | [] => none
        | Except.ok _ :: auths2 => http_request rest auths2 negs v false
        | Except.error e :: _ => some (Except.error e)
      else if code == 450 then
        match negs with
        | [] => none
        | Except.error e :: _ => some (Except.error e)
        | Except.ok v2 :: negs2 =>
            if v2 == v then
              some (Except.error (PureErr.apiError (some 450)
                ("Unable to find usable REST API version. " ++
                 "Response from Pure Storage REST API: " ++ body)))
            else http_request rest auths negs2 v2 true
      else some (Except.error (PureErr.apiError (some code) body))
  | HttpResp.urlError :: _, _, _, _, _ =>
      some (Except.error (PureErr.driverError
        "Unable to connect to target array. Check san_ip."))

/-- Insert a string into a list sorted in descending order, after any equal
elements (so that the overall sort is stable, like Python's `list.sort`). -/
def insertDesc (x : String) : List String → List String
  | [] => [x]
  | y :: ys => if y < x then x :: y :: ys else y :: insertDesc x ys

/-- Stable descending sort, modelling `available_versions.sort(reverse=True)`
in `FlashArray._choose_rest_version` (pure.py line 405). -/
def sortDesc : List String → List String
  | [] => []
  | x :: xs => insertDesc x (sortDesc xs)

/-- `FlashArray.SUPPORTED_REST_API_VERSIONS` (pure.py line 346). -/
def SUPPORTED_REST_API_VERSIONS : List String := ["1.3", "1.2"]

/-- Embedding of `FlashArray._choose_rest_version` (pure.py lines 400-412),
with the array's reported version list (`data["version"]`) passed in as
`available`: sort descending, return the first version the driver supports,
else raise `PureDriverException`. -/
def choose_rest_version (available : List String) : Except PureErr String :=
  match (sortDesc available).find?
      (fun v => SUPPORTED_REST_API_VERSIONS.contains v) with
  | some v => Except.ok v
  | none => Except.error (PureErr.driverError
      ("All REST API versions supported by this version of the " ++
       "Pure Storage iSCSI driver are unavailable on array."))

/-- Membership in the character class `[-a-zA-Z0-9]`, the complement of
`INVALID_CHARACTERS` (pure.py line 48). -/
def isAllowedChar (c : Char) : Bool :=
  c == '-' || (('a' ≤ c) && (c ≤ 'z')) || (('A' ≤ c) && (c ≤ 'Z')) ||
    (('0' ≤ c) && (c ≤ '9'))

/-- Membership in the character class `[a-f0-9]` used by `GENERATED_NAME`
(pure.py line 49). -/
def isLowerHexChar (c : Char) : Bool :=
  (('0' ≤ c) && (c ≤ '9')) || (('a' ≤ c) && (c ≤ 'f'))

/-- Strip an expected literal character sequence from the front of a list:
`some` of the remainder when the list starts with `expected`, else `none`. -/
def stripLiteral : List Char → List Char → Option (List Char)
  | [], l => some l
  | _ :: _, [] => none
  | e :: es, c :: cs => if c = e then stripLiteral es cs else none

/-- Embedding of `GENERATED_NAME.match(s)` for the pattern
`.*-[a-f0-9]{32}-cinder$` (pure.py line 49), with Python `re` semantics:
the match is anchored at the start, `.` does not match a newline, and `$`
also matches just before a newline at the end of the string.  Working on
the reversed character list: optionally drop one final newline, expect the
literal `-cinder` (reversed), then 32 lowercase hex digits, then `-`, and
require the remaining leading part to be newline-free (matched by `.*`). -/
def generatedNameMatchL (l : List Char) : Bool :=
  let r0 := l.reverse
  let r := if r0.head? = some '\n' then r0.tail else r0
  match stripLiteral ['r', 'e', 'd', 'n', 'i', 'c', '-'] r with
  | none => false
  | some rest =>
      (rest.take 32).length == 32 && (rest.take 32).all isLowerHexChar &&
      (match stripLiteral ['-'] (rest.drop 32) with
       | none => false
       | some pre => pre.all (fun c => c != '\n'))

/-- Embedding of `_generate_purity_host_name` (pure.py lines 62-68) on
character lists, with the random `uuid.uuid4().hex` suffix passed in as
`uuidHex`: truncate to 23 characters, replace characters outside
`[-a-zA-Z0-9]` by `-`, strip leading `-`, then append `-`, the hex suffix
and `-cinder`. -/
def generate_purity_host_name (name uuidHex : List Char) : List Char :=
  let n1 := if name.length > 23 then name.take 23 else name
  let n2 := n1.map (fun c => if isAllowedChar c then c else '-')
  let n3 := n2.dropWhile (fun c => c == '-')
  n3 ++ ('-' :: uuidHex) ++ ('-' :: ['c', 'i', 'n', 'd', 'e', 'r'])

/-- Embedding of `PureISCSIDriver._disconnect_host` (pure.py lines 288-305).
`disconnectResult` is the outcome of `self._array.disconnect_host`,
`privateConnections` the result of
`self._array.list_host_connections(host_name, private=True)`.  A
`PureAPIException` with code 400 from the disconnect is swallowed; any
other exception propagates.  The returned boolean records whether
`self._array.delete_host(host_name)` was issued: exactly when the host name
matches `GENERATED_NAME` and the private connection list is empty. -/
def disconnect_host (disconnectResult : Except PureErr Unit)
    (privateConnections : List String) (hostName : List Char) :
    Except PureErr Bool :=
  match disconnectResult with
  | Except.ok _ =>
      Except.ok (generatedNameMatchL hostName && privateConnections.isEmpty)
  | Except.error (PureErr.apiError (some 400) _) =>
      Except.ok (generatedNameMatchL hostName && privateConnections.isEmpty)
  | Except.error e => Except.error e

/-- A connection record returned by the array for a volume: the host name
and the assigned LUN id (`host_info` entries of
`self._array.list_volume_hosts(vol_name)` in pure.py). -/
structure ConnInfo where
  host : String
  lun : Nat
deriving DecidableEq, Repr

/-- Python's substring test `pat in s`, on character lists: true when `pat`
occurs contiguously somewhere in the list. -/
def listHasInfix (pat : List Char) : List Char → Bool
  | [] => pat.isEmpty
  | c :: cs => pat.isPrefixOf (c :: cs) || listHasInfix pat cs

/-- Test for the substring `"Connection already exists" in err.msg`
(pure.py line 251). -/
def msgHasConnectionExists (msg : String) : Bool :=
  listHasInfix "Connection already exists".toList msg.toList

/-- Embedding of the connect step of `PureISCSIDriver._connect`
(pure.py lines 246-265).  `hostName` is the host name resolved or generated
by lines 234-244, `connectResult` the outcome of
`self._array.connect_host(host_name, vol_name)`, and `volumeHosts` the
result of `self._array.list_volume_hosts(vol_name)` consulted on an
"already exists" conflict.  On a `PureAPIException` with code 400 whose
message contains "Connection already exists", the volume's connections are
re-listed and the first record whose host matches is returned; if none
matches, a `PureDriverException` is raised.  Any other exception
propagates. -/
def connect_recover (hostName : String)
    (connectResult : Except PureErr ConnInfo) (volumeHosts : List ConnInfo) :
    Except PureErr ConnInfo :=
  match connectResult with
  | Except.ok c => Except.ok c
  | Except.error (PureErr.apiError (some 400) msg) =>
      if msgHasConnectionExists msg then
        match volumeHosts.find? (fun hi => hi.host == hostName) with
        | some c => Except.ok c
        | none => Except.error (PureErr.driverError
            "Unable to connect or find connection to host")
      else Except.error (PureErr.apiError (some 400) msg)
  | Except.error e => Except.error e

/-- Test for the substring `"Volume does not exist" in err.msg`
(pure.py line 145), on the underlying character lists. -/
def msgHasVolumeDoesNotExist (msg : String) : Bool :=
  listHasInfix "Volume does not exist".toList msg.toList

/-- Embedding of the exception handling of `PureISCSIDriver.delete_snapshot`
(pure.py lines 159-172), with the outcome of
`self._array.destroy_volume(snap_name)` passed in: a `PureAPIException`
whose code is 400 is swallowed regardless of its message; every other
exception propagates. -/
def delete_snapshot (destroyResult : Except PureErr Unit) :
    Except PureErr Unit :=
  match destroyResult with
  | Except.ok _ => Except.ok ()
  | Except.error (PureErr.apiError (some code) msg) =>
      if code == 400 then Except.ok ()
      else Except.error (PureErr.apiError (some code) msg)
  | Except.error e => Except.error e

/-- Embedding of the exception handling of `PureISCSIDriver.delete_volume`
(pure.py lines 132-150), with the outcome of the try block (lines 136-141:
list connected hosts, disconnect each, destroy the volume) passed in: a
`PureAPIException` is swallowed only when its code is 400 and its message
contains "Volume does not exist"; every other exception propagates. -/
def delete_volume (bodyResult : Except PureErr Unit) : Except PureErr Unit :=
  match bodyResult with
  | Except.ok _ => Except.ok ()
  | Except.error (PureErr.apiError (some code) msg) =>
      if code == 400 && msgHasVolumeDoesNotExist msg then Except.ok ()
      else Except.error (PureErr.apiError (some code) msg)
  | Except.error e => Except.error e

/-- Modelled from the spec: errors seen by the NetApp block storage library
`NetAppBlockStorageLibrary` of block_base.py, which is not in the source
tree (only its unit tests are).  `mappingConflict msg` is an array-reported
"mapping already exists" conflict from the map call (spec section 4.4 step
4); `apiError msg` any other `NaApiError`; `volumeNotFound` the fatal
NotFound when the local cross-reference has no metadata for the volume
(spec section 4.4 step 1). -/
inductive NaErr where
  | mappingConflict (msg : String)
  | apiError (msg : String)
  | volumeNotFound
deriving DecidableEq, Repr

/-- Modelled from the spec (section 4.4 `map`) and test_block_base.py lines
86-137: `NetAppBlockStorageLibrary._map_lun`, whose source (block_base.py)
is not in the source tree.  `lunAttr` is the `{path, osType}` metadata from
the local cross-reference (absence is a fatal NotFound); `mapResult` the
outcome of the array map call `zapi_client.map_lun` for the resolved
initiator group; `find` the protocol family's `_find_mapped_lun_igroup`,
returning an optional group name and optional LUN id.  On a
"mapping already exists" conflict the library falls back to
`find path initiators`; when that discovers a group and a LUN id the LUN id
is returned, otherwise the original conflict error propagates unchanged. -/
def map_lun (lunAttr : Option (String × String)) (initiators : List String)
    (mapResult : Except NaErr String)
    (find : String → List String → Option String × Option String) :
    Except NaErr String :=
  match lunAttr with
  | none => Except.error NaErr.volumeNotFound
  | some (path, _osType) =>
      match mapResult with
      | Except.ok lunId => Except.ok lunId
      | Except.error (NaErr.mappingConflict msg) =>
          match find path initiators with
          | (some _igroup, some lunId) => Except.ok lunId
          | _ => Except.error (NaErr.mappingConflict msg)
      | Except.error e => Except.error e

/-- Modelled from the spec (sections 3 and 4.3): an array-side initiator
group: name, member initiators, protocol and OS type. -/
structure Igroup where
  name : String
  initiators : List String
  protocol : String
  osType : String
deriving DecidableEq, Repr

/-- Modelled from the spec (section 4.3 step 1):
`zapi_client.get_igroup_by_initiators`, the array query returning every
group containing at least one member of the given initiator set, in the
array's listing order. -/
def get_igroup_by_initiators (groups : List Igroup) (inits : List String) :
    List Igroup :=
  groups.filter (fun g => inits.any (fun i => g.initiators.contains i))

/-- Modelled from the spec (section 4.3 step 2):
`zapi_client.create_igroup(name, protocol, osType)` appends a new, initially
empty group to the array state. -/
def create_igroup (groups : List Igroup) (name protocol osType : String) :
    List Igroup :=
  groups ++ [Igroup.mk name [] protocol osType]

/-- Modelled from the spec (section 4.3 step 2):
`zapi_client.add_igroup_initiator(name, i)` adds one initiator to every
group bearing the given name. -/
def add_igroup_initiator (groups : List Igroup) (name i : String) :
    List Igroup :=
  groups.map (fun g =>
    if g.name == name then
      Igroup.mk g.name (g.initiators ++ [i]) g.protocol g.osType
    else g)

/-- Modelled from the spec (section 4.3) and test_block_base.py lines
161-182: `NetAppBlockStorageLibrary._get_or_create_igroup`, whose source
(block_base.py) is not in the source tree.  If the array query returns one
or more candidate groups, the first candidate's name is returned and the
array state is unchanged; otherwise a group named `openstack-` followed by
the random `uuid.uuid4()` suffix (passed in as `uuidStr`) is created with
the given protocol and OS type, and then each initiator is added to it
individually. -/
def get_or_create_igroup (groups : List Igroup) (inits : List String)
    (protocol osType uuidStr : String) : String × List Igroup :=
  match get_igroup_by_initiators groups inits with
  | g :: _ => (g.name, groups)
  | [] =>
      let name := "openstack-" ++ uuidStr
      let gs1 := create_igroup groups name protocol osType
      let gs2 := inits.foldl (fun acc i => add_igroup_initiator acc name i) gs1
      (name, gs2)

/-- Modelled from the spec (section 4.5): one per-initiator entry of the
fabric lookup service's answer: the initiator, its reachable target subset,
and its path count. -/
structure FabricEntry where
  initiator : String
  targets : List String
  numPaths : Nat
deriving DecidableEq, Repr

/-- Modelled from the spec (section 4.5) and test_block_base.py lines
253-281: `NetAppBlockStorageLibrary._build_initiator_target_map`, whose
source (block_base.py) is not in the source tree.  `lookup` is the optional
fabric lookup service's answer for (connector initiator WWPNs, array target
WWPNs); `initiators` the connector's initiator WWPNs; `allTargets` the full
set of target WWPNs discovered from the array.  With a lookup service, the
reachable target subsets of all initiators are gathered into the result's
target set and the per-initiator path counts are summed into the total;
without one, every initiator maps to every discovered target and the
reported path count is 0. -/
def build_initiator_target_map (lookup : Option (List FabricEntry))
    (initiators : List String) (allTargets : List String) :
    List String × List (String × List String) × Nat :=
  match lookup with
  | some entries =>
      ((entries.map (fun e => e.targets)).flatten,
       entries.map (fun e => (e.initiator, e.targets)),
       (entries.map (fun e => e.numPaths)).sum)
  | none => (allTargets, initiators.map (fun i => (i, allTargets)), 0)

/-! Helper lemmas. -/

/-- Any string of the shape `p ++ "-" ++ u ++ "-cinder"` with `u` made of 32
lowercase hex digits and `p` newline-free matches `GENERATED_NAME`. -/
theorem matchL_of_decomp (p u : List Char) (h1 : u.length = 32)
    (h2 : ∀ c ∈ u, isLowerHexChar c = true) (h3 : ∀ c ∈ p, c ≠ '\n') :
    generatedNameMatchL
      (p ++ '-' :: u ++ '-' :: ['c', 'i', 'n', 'd', 'e', 'r']) = true := by
  have hrev : (p ++ '-' :: u ++ '-' :: ['c', 'i', 'n', 'd', 'e', 'r']).reverse =
      'r' :: 'e' :: 'd' :: 'n' :: 'i' :: 'c' :: '-' ::
        (u.reverse ++ '-' :: p.reverse) := by
    simp
  have hlen : u.reverse.length = 32 := by simp [h1]
  have htake : (u.reverse ++ '-' :: p.reverse).take 32 = u.reverse :=
    List.take_left' hlen
  have hdrop : (u.reverse ++ '-' :: p.reverse).drop 32 = '-' :: p.reverse :=
    List.drop_left' hlen
  unfold generatedNameMatchL
  rw [hrev]
  simp only [List.head?_cons, List.tail_cons]
  simp only [stripLiteral, if_pos, reduceIte]
  simp only [htake, hdrop, hlen]
  simp only [stripLiteral, reduceIte]
  simp only [List.all_eq_true, List.mem_reverse, beq_iff_eq, bne_iff_ne, ne_eq,
    Bool.and_eq_true]
  exact ⟨⟨trivial, fun c hc => h2 c hc⟩, fun c hc => h3 c hc⟩

/-- Adding the initiators of `l` one by one (`add_igroup_initiator`) to a
group list is the same as appending `l` to the initiator list of every
group bearing the target name. -/
theorem foldl_add_igroup_eq_map (name : String) (l : List String)
    (gs : List Igroup) :
    l.foldl (fun acc i => add_igroup_initiator acc name i) gs =
      gs.map (fun g =>
        if g.name == name then
          Igroup.mk g.name (g.initiators ++ l) g.protocol g.osType
        else g) := by
  induction l generalizing gs with
  | nil =>
    simp only [List.foldl_nil]
    have : ∀ g : Igroup,
        (if g.name == name then
          Igroup.mk g.name (g.initiators ++ []) g.protocol g.osType
        else g) = g := by
      intro g
      by_cases h : g.name == name <;> simp [h]
    simp [this]
  | cons a t ih =>
    simp only [List.foldl_cons]
    rw [ih]
    unfold add_igroup_initiator
    rw [List.map_map]
    apply List.map_congr_left
    intro g _
    by_cases h : g.name == name
    · simp [Function.comp, h]
    · simp [Function.comp, h]

/-- Shape of the array state and returned name after the creation branch of
`get_or_create_igroup`: the new group is appended with all initiators
added, and any pre-existing group that happens to bear the generated name
also receives the initiators. -/
theorem get_or_create_igroup_create_shape (groups : List Igroup)
    (inits : List String) (protocol osType u : String)
    (hq : get_igroup_by_initiators groups inits = []) :
    get_or_create_igroup groups inits protocol osType u =
      ("openstack-" ++ u,
        groups.map (fun g =>
          if g.name == ("openstack-" ++ u) then
            Igroup.mk g.name (g.initiators ++ inits) g.protocol g.osType
          else g) ++
        [Igroup.mk ("openstack-" ++ u) inits protocol osType]) := by
  simp only [get_or_create_igroup, hq, create_igroup]
  rw [foldl_add_igroup_eq_map, List.map_append]
  simp

/-- After the creation branch ran, the array query for the same (nonempty)
initiator set returns a nonempty candidate list whose first element bears
the generated name. -/
theorem query_after_create_head (groups : List Igroup) (inits : List String)
    (protocol osType nm i0 : String) (t : List String)
    (hinits : inits = i0 :: t)
    (hq : get_igroup_by_initiators groups inits = []) :
    ∃ g rest,
      get_igroup_by_initiators
        (groups.map (fun g =>
          if g.name == nm then
            Igroup.mk g.name (g.initiators ++ inits) g.protocol g.osType
          else g) ++ [Igroup.mk nm inits protocol osType]) inits = g :: rest ∧
      g.name = nm := by
  have hnomatch : ∀ g ∈ groups,
      (inits.any fun i => g.initiators.contains i) = false := by
    intro g hg
    have h2 := List.filter_eq_nil_iff.mp hq g hg
    simpa using h2
  have hnew :
      (inits.any fun i =>
        (Igroup.mk nm inits protocol osType).initiators.contains i) = true := by
    subst hinits
    simp
  have hmem : ∀ x ∈ (groups.map (fun g =>
      if g.name == nm then
        Igroup.mk g.name (g.initiators ++ inits) g.protocol g.osType
      else g)).filter (fun g => inits.any fun i => g.initiators.contains i),
      x.name = nm := by
    intro x hx
    rcases List.mem_filter.mp hx with ⟨hx1, hx2⟩
    rcases List.mem_map.mp hx1 with ⟨g, hg, rfl⟩
    by_cases h : g.name == nm
    · simp only [h, if_true]
      simpa using h
    · simp only [h] at hx2
      simp only [Bool.false_eq_true, if_false] at hx2
      rw [hnomatch g hg] at hx2
      exact absurd hx2 (by simp)
  unfold get_igroup_by_initiators
  rw [List.filter_append]
  cases hL1 : (groups.map (fun g =>
      if g.name == nm then
        Igroup.mk g.name (g.initiators ++ inits) g.protocol g.osType
      else g)).filter (fun g => inits.any fun i => g.initiators.contains i) with
  | nil =>
    refine ⟨Igroup.mk nm inits protocol osType, [], ?_, rfl⟩
    simp [hnew]
    exact ⟨i0, by simp [hinits]⟩
  | cons x xs =>
    refine ⟨x, xs ++ List.filter
        (fun g => inits.any fun i => g.initiators.contains i)
        [Igroup.mk nm inits protocol osType], ?_, ?_⟩
    · simp
    · apply hmem
      rw [hL1]
      exact List.mem_cons_self x xs

/-- When the array query returns a nonempty candidate list,
`get_or_create_igroup` returns the first candidate's name and leaves the
array state unchanged. -/
theorem get_or_create_second (S : List Igroup) (inits : List String)
    (protocol osType u : String) (g : Igroup) (rest : List Igroup)
    (h : get_igroup_by_initiators S inits = g :: rest) :
    get_or_create_igroup S inits protocol osType u = (g.name, S) := by
  simp [get_or_create_igroup, h]

/-! Claim theorems. -/

/-- C1: on an array-reported "mapping already exists" conflict, `_map_lun`
falls back to `_find_mapped_lun_igroup(path, initiators)`: if discovery
returns a group and a LUN id, that LUN id is returned without raising; if
discovery finds no mapping, the original conflict error propagates
unchanged as fatal. -/
theorem map_lun_conflict_fallback (path osType msg : String)
    (initiators : List String)
    (find : String → List String → Option String × Option String) :
    (∀ g lunId, find path initiators = (some g, some lunId) →
      map_lun (some (path, osType)) initiators
        (Except.error (NaErr.mappingConflict msg)) find = Except.ok lunId) ∧
    (find path initiators = (none, none) →
      map_lun (some (path, osType)) initiators
        (Except.error (NaErr.mappingConflict msg)) find =
        Except.error (NaErr.mappingConflict msg)) := by
  constructor
  · intro g lunId h
    simp [map_lun, h]
  · intro h
    simp [map_lun, h]

/-- C1 witness: the two branches at concrete inputs, mirroring
test_map_lun_preexisting and test_map_lun_api_error. -/
theorem map_lun_conflict_fallback_witness :
    map_lun (some ("/vol/vol1/lun1", "linux")) ["iqn.a"]
      (Except.error (NaErr.mappingConflict "already mapped"))
      (fun _ _ => (some "igroup1", some "2")) = Except.ok "2" ∧
    map_lun (some ("/vol/vol1/lun1", "linux")) ["iqn.a"]
      (Except.error (NaErr.mappingConflict "already mapped"))
      (fun _ _ => (none, none)) =
      Except.error (NaErr.mappingConflict "already mapped") :=
  ⟨(map_lun_conflict_fallback "/vol/vol1/lun1" "linux" "already mapped"
      ["iqn.a"] (fun _ _ => (some "igroup1", some "2"))).1 "igroup1" "2" rfl,
   (map_lun_conflict_fallback "/vol/vol1/lun1" "linux" "already mapped"
      ["iqn.a"] (fun _ _ => (none, none))).2 rfl⟩

/-- C2: if the array query returns candidates, `_get_or_create_igroup`
returns the first candidate's name and creates nothing; if it returns none,
exactly one group with the generated `openstack-` name is created carrying
all initiators (added individually); and a second call with the same
(nonempty) initiator set returns the identical name and leaves the array
state unchanged, so no second group is ever created. -/
theorem get_or_create_igroup_idempotent (groups : List Igroup)
    (inits : List String) (protocol osType u1 u2 : String)
    (hne : inits ≠ []) :
    (∀ g rest, get_igroup_by_initiators groups inits = g :: rest →
      get_or_create_igroup groups inits protocol osType u1 =
        (g.name, groups)) ∧
    (get_igroup_by_initiators groups inits = [] →
      (get_or_create_igroup groups inits protocol osType u1).1 =
        "openstack-" ++ u1 ∧
      (get_or_create_igroup groups inits protocol osType u1).2.length =
        groups.length + 1 ∧
      Igroup.mk ("openstack-" ++ u1) inits protocol osType ∈
        (get_or_create_igroup groups inits protocol osType u1).2) ∧
    ((get_or_create_igroup
        (get_or_create_igroup groups inits protocol osType u1).2 inits
        protocol osType u2).1 =
      (get_or_create_igroup groups inits protocol osType u1).1 ∧
     (get_or_create_igroup
        (get_or_create_igroup groups inits protocol osType u1).2 inits
        protocol osType u2).2 =
      (get_or_create_igroup groups inits protocol osType u1).2) := by
  refine ⟨?_, ?_, ?_⟩
  · exact fun g rest h =>
      get_or_create_second groups inits protocol osType u1 g rest h
  · intro hq
    rw [get_or_create_igroup_create_shape groups inits protocol osType u1 hq]
    refine ⟨rfl, by simp, by simp⟩
  · cases hcase : get_igroup_by_initiators groups inits with
    | cons g rest =>
      have h1 := get_or_create_second groups inits protocol osType u1 g rest hcase
      have h2 := get_or_create_second groups inits protocol osType u2 g rest hcase
      simp only [h1]
      rw [h2]
      exact ⟨rfl, rfl⟩
    | nil =>
      have hshape :=
        get_or_create_igroup_create_shape groups inits protocol osType u1 hcase
      rcases List.exists_cons_of_ne_nil hne with ⟨i0, t, hinits⟩
      rcases query_after_create_head groups inits protocol osType
          ("openstack-" ++ u1) i0 t hinits hcase with ⟨g, rest, hquery, hname⟩
      have hsecond := get_or_create_second _ inits protocol osType u2 g rest hquery
      simp only [hshape]
      rw [hsecond]
      exact ⟨hname, rfl⟩

/-- C2 witness: the hypothesis and the conclusion at a concrete instance
(empty array state, one initiator). -/
theorem get_or_create_igroup_idempotent_witness :
    (["iqn.a"] : List String) ≠ [] ∧
    ((∀ g rest,
        get_igroup_by_initiators ([] : List Igroup) ["iqn.a"] = g :: rest →
        get_or_create_igroup ([] : List Igroup) ["iqn.a"] "fcp" "linux" "u1" =
          (g.name, ([] : List Igroup))) ∧
     (get_igroup_by_initiators ([] : List Igroup) ["iqn.a"] = [] →
        (get_or_create_igroup ([] : List Igroup)
          ["iqn.a"] "fcp" "linux" "u1").1 = "openstack-" ++ "u1" ∧
        (get_or_create_igroup ([] : List Igroup)
          ["iqn.a"] "fcp" "linux" "u1").2.length =
          List.length ([] : List Igroup) + 1 ∧
        Igroup.mk ("openstack-" ++ "u1") ["iqn.a"] "fcp" "linux" ∈
          (get_or_create_igroup ([] : List Igroup)
            ["iqn.a"] "fcp" "linux" "u1").2) ∧
     ((get_or_create_igroup
          (get_or_create_igroup ([] : List Igroup)
            ["iqn.a"] "fcp" "linux" "u1").2 ["iqn.a"] "fcp" "linux" "u2").1 =
        (get_or_create_igroup ([] : List Igroup)
          ["iqn.a"] "fcp" "linux" "u1").1 ∧
      (get_or_create_igroup
          (get_or_create_igroup ([] : List Igroup)
            ["iqn.a"] "fcp" "linux" "u1").2 ["iqn.a"] "fcp" "linux" "u2").2 =
        (get_or_create_igroup ([] : List Igroup)
          ["iqn.a"] "fcp" "linux" "u1").2)) :=
  ⟨by decide,
   get_or_create_igroup_idempotent ([] : List Igroup) ["iqn.a"] "fcp" "linux"
     "u1" "u2" (by decide)⟩

/-- C3: on a version-rejected (HTTP 450) response, `_http_request`
renegotiates the REST API version via `_choose_rest_version` and retries
the call once with the new version; if renegotiation yields the same
version as before, the call fails fatally with the incompatible-version
`PureAPIException` instead of retrying. -/
theorem http_request_version_rejected
    (avail : List String) (v v2 body : String) (rest : List HttpResp)
    (auths : List (Except PureErr Unit)) (negs : List (Except PureErr String))
    (b : Bool) :
    (choose_rest_version avail = Except.ok v →
      http_request (HttpResp.httpError 450 body :: rest) auths
          (choose_rest_version avail :: negs) v b =
        some (Except.error (PureErr.apiError (some 450)
          ("Unable to find usable REST API version. " ++
           "Response from Pure Storage REST API: " ++ body)))) ∧
    (choose_rest_version avail = Except.ok v2 → v2 ≠ v →
      http_request (HttpResp.httpError 450 body :: rest) auths
          (choose_rest_version avail :: negs) v b =
        http_request rest auths negs v2 true) := by
  constructor
  · intro h
    rw [h]
    simp [http_request]
  · intro h hne
    rw [h]
    simp [http_request, hne]

/-- C3 witness: with version 1.3 negotiated again, the call fails fatally;
with 1.2 negotiated instead, the call is retried at version 1.2. -/
theorem http_request_version_rejected_witness :
    http_request [HttpResp.httpError 450 "bad version"] []
        [choose_rest_version ["1.3"]] "1.3" true =
      some (Except.error (PureErr.apiError (some 450)
        ("Unable to find usable REST API version. " ++
         "Response from Pure Storage REST API: " ++ "bad version"))) ∧
    http_request [HttpResp.httpError 450 "bad version"] []
        [choose_rest_version ["1.2"]] "1.3" true =
      http_request [] [] [] "1.2" true :=
  ⟨(http_request_version_rejected ["1.3"] "1.3" "x" "bad version"
      [] [] [] true).1 rfl,
   (http_request_version_rejected ["1.2"] "x" "1.2" "bad version"
      [] [] [] true).2 rfl (by decide)⟩

/-- C4: on an auth-expired (HTTP 401) response, `_http_request`
re-authenticates once and retries the same call exactly once; a second 401
on the retried call is fatal and surfaces as a `PureAPIException` carrying
the status code and message, with no second re-authentication (the result
does not depend on any further entries of the auth script); a success on
the retried call returns its content. -/
theorem http_request_auth_retry_once (b1 b2 content : String)
    (rest : List HttpResp) (auths : List (Except PureErr Unit))
    (negs : List (Except PureErr String)) (v : String) :
    http_request
        (HttpResp.httpError 401 b1 :: HttpResp.httpError 401 b2 :: rest)
        (Except.ok () :: auths) negs v true =
      some (Except.error (PureErr.apiError (some 401) b2)) ∧
    http_request
        (HttpResp.httpError 401 b1 :: HttpResp.ok true content :: rest)
        (Except.ok () :: auths) negs v true =
      some (Except.ok (content, v)) := by
  constructor
  · simp [http_request]
  · simp [http_request]

/-- C5: with a fabric lookup service, the topology builder's target set is
the union of the per-initiator reachable target subsets and its path count
is the sum of the per-initiator path counts; in particular initiators A, B
with fabric map A -> (T1, 1 path) and B -> (T2, T3, 1 path) yield target
set T1, T2, T3 and path count 2. -/
theorem build_initiator_target_map_lookup (entries : List FabricEntry)
    (initiators allTargets : List String) :
    (∀ t,
      t ∈ (build_initiator_target_map (some entries) initiators allTargets).1 ↔
      ∃ e ∈ entries, t ∈ e.targets) ∧
    (build_initiator_target_map (some entries) initiators allTargets).2.2 =
      (entries.map (fun e => e.numPaths)).sum ∧
    (build_initiator_target_map
        (some [FabricEntry.mk "A" ["T1"] 1, FabricEntry.mk "B" ["T2", "T3"] 1])
        ["A", "B"] allTargets).1 = ["T1", "T2", "T3"] ∧
    (build_initiator_target_map
        (some [FabricEntry.mk "A" ["T1"] 1, FabricEntry.mk "B" ["T2", "T3"] 1])
        ["A", "B"] allTargets).2.2 = 2 := by
  refine ⟨?_, rfl, rfl, rfl⟩
  intro t
  simp [build_initiator_target_map, List.mem_flatten]

/-- C6: without a fabric lookup service, the topology builder maps every
connector initiator to the full set of target WWPNs discovered from the
array and reports a path count of 0. -/
theorem build_initiator_target_map_no_lookup
    (initiators allTargets : List String) :
    (build_initiator_target_map none initiators allTargets).1 = allTargets ∧
    (∀ i ∈ initiators, (i, allTargets) ∈
      (build_initiator_target_map none initiators allTargets).2.1) ∧
    (build_initiator_target_map none initiators allTargets).2.2 = 0 := by
  refine ⟨rfl, ?_, rfl⟩
  intro i hi
  simp [build_initiator_target_map]
  exact hi

/-- C6 witness: the no-lookup-service result at a concrete connector. -/
theorem build_initiator_target_map_no_lookup_witness :
    (build_initiator_target_map none ["A", "B"] ["T1", "T2"]).1 =
      ["T1", "T2"] ∧
    (∀ i ∈ (["A", "B"] : List String), (i, (["T1", "T2"] : List String)) ∈
      (build_initiator_target_map none ["A", "B"] ["T1", "T2"]).2.1) ∧
    (build_initiator_target_map none ["A", "B"] ["T1", "T2"]).2.2 = 0 :=
  build_initiator_target_map_no_lookup ["A", "B"] ["T1", "T2"]

/-- C7: after the disconnect step completed (either successfully or with a
swallowed code-400 conflict), `_disconnect_host` deletes the host if and
only if the host name matches the auto-generated `GENERATED_NAME` pattern
and the host has zero remaining private connections; an admin-named host
is never deleted. -/
theorem disconnect_host_delete_iff (dres : Except PureErr Unit)
    (conns : List String) (hostName : List Char)
    (h : dres = Except.ok () ∨
      ∃ m, dres = Except.error (PureErr.apiError (some 400) m)) :
    ∃ deleted, disconnect_host dres conns hostName = Except.ok deleted ∧
      (deleted = true ↔ generatedNameMatchL hostName = true ∧ conns = []) := by
  have hgoal : ∀ b, (b && conns.isEmpty) = true ↔ b = true ∧ conns = [] := by
    intro b
    simp [List.isEmpty_iff]
  rcases h with h | ⟨m, h⟩
  · subst h
    exact ⟨_, rfl, hgoal _⟩
  · subst h
    exact ⟨_, rfl, hgoal _⟩

/-- C7 witness: a successfully disconnected host with a generated-pattern
name and no remaining private connections. -/
theorem disconnect_host_delete_iff_witness :
    ∃ deleted,
      disconnect_host (Except.ok ()) []
        "myhost-0123456789abcdef0123456789abcdef-cinder".toList =
        Except.ok deleted ∧
      (deleted = true ↔
        generatedNameMatchL
          "myhost-0123456789abcdef0123456789abcdef-cinder".toList = true ∧
        ([] : List String) = []) :=
  disconnect_host_delete_iff (Except.ok ()) []
    "myhost-0123456789abcdef0123456789abcdef-cinder".toList (Or.inl rfl)

/-- C8: when the connect call fails with a code-400 "Connection already
exists" conflict, `_connect` re-lists the volume's connected hosts and
returns the record whose host name matches; if no record matches, it
raises a distinct fatal `PureDriverException`, not the original conflict
error. -/
theorem connect_conflict_recovery (hostName msg : String) (vh : List ConnInfo)
    (hmsg : msgHasConnectionExists msg = true) :
    (∀ c, vh.find? (fun hi => hi.host == hostName) = some c →
      connect_recover hostName
        (Except.error (PureErr.apiError (some 400) msg)) vh = Except.ok c) ∧
    (vh.find? (fun hi => hi.host == hostName) = none →
      connect_recover hostName
        (Except.error (PureErr.apiError (some 400) msg)) vh =
        Except.error (PureErr.driverError
          "Unable to connect or find connection to host") ∧
      PureErr.driverError "Unable to connect or find connection to host" ≠
        PureErr.apiError (some 400) msg) := by
  constructor
  · intro c h
    simp [connect_recover, hmsg, h]
  · intro h
    refine ⟨?_, by simp⟩
    simp [connect_recover, hmsg, h]

/-- C8 witness: the conflict recovery at a concrete volume connection
list containing the host. -/
theorem connect_conflict_recovery_witness :
    (∀ c, [ConnInfo.mk "host1" 3].find? (fun hi => hi.host == "host1") =
        some c →
      connect_recover "host1"
        (Except.error (PureErr.apiError (some 400)
          "Connection already exists"))
        [ConnInfo.mk "host1" 3] = Except.ok c) ∧
    ([ConnInfo.mk "host1" 3].find? (fun hi => hi.host == "host1") = none →
      connect_recover "host1"
        (Except.error (PureErr.apiError (some 400)
          "Connection already exists"))
        [ConnInfo.mk "host1" 3] =
        Except.error (PureErr.driverError
          "Unable to connect or find connection to host") ∧
      PureErr.driverError "Unable to connect or find connection to host" ≠
        PureErr.apiError (some 400) "Connection already exists") :=
  connect_conflict_recovery "host1" "Connection already exists"
    [ConnInfo.mk "host1" 3] (by decide)

/-- C9: for every input string, `_generate_purity_host_name` returns the
input truncated to 23 characters with characters outside `[-a-zA-Z0-9]`
replaced by `-` and leading `-` stripped, followed by `-`, the 32 lowercase
hex digits, and `-cinder`; consequently the generated name always matches
the `GENERATED_NAME` pattern used by `_disconnect_host`. -/
theorem generate_purity_host_name_spec (name uuidHex : List Char)
    (h1 : uuidHex.length = 32) (h2 : ∀ c ∈ uuidHex, isLowerHexChar c = true) :
    generate_purity_host_name name uuidHex =
      (((name.take 23).map
          (fun c => if isAllowedChar c then c else '-')).dropWhile
          (fun c => c == '-')) ++
        ('-' :: uuidHex) ++ ('-' :: ['c', 'i', 'n', 'd', 'e', 'r']) ∧
    generatedNameMatchL (generate_purity_host_name name uuidHex) = true := by
  have hn1 : (if name.length > 23 then name.take 23 else name) =
      name.take 23 := by
    by_cases h : name.length > 23
    · simp [h]
    · simp [h, List.take_of_length_le (Nat.le_of_not_lt h)]
  have hstruct : generate_purity_host_name name uuidHex =
      (((name.take 23).map
          (fun c => if isAllowedChar c then c else '-')).dropWhile
          (fun c => c == '-')) ++
        ('-' :: uuidHex) ++ ('-' :: ['c', 'i', 'n', 'd', 'e', 'r']) := by
    unfold generate_purity_host_name
    rw [hn1]
  refine ⟨hstruct, ?_⟩
  rw [hstruct]
  apply matchL_of_decomp _ _ h1 h2
  intro c hc
  have hc2 : c ∈ (name.take 23).map
      (fun c => if isAllowedChar c then c else '-') :=
    (List.dropWhile_sublist (fun c => c == '-')).subset hc
  rcases List.mem_map.mp hc2 with ⟨a, _, ha⟩
  by_cases hall : isAllowedChar a = true
  · rw [hall] at ha
    simp only [if_true] at ha
    intro hcn
    rw [hcn] at ha
    rw [ha] at hall
    exact absurd hall (by decide)
  · rw [Bool.not_eq_true] at hall
    rw [hall] at ha
    simp only [Bool.false_eq_true, if_false] at ha
    rw [← ha]
    decide

/-- C9 witness: the hypotheses and the conclusion at a concrete host name
and hex suffix. -/
theorem generate_purity_host_name_spec_witness :
    ("0123456789abcdef0123456789abcdef".toList.length = 32 ∧
      ∀ c ∈ "0123456789abcdef0123456789abcdef".toList,
        isLowerHexChar c = true) ∧
    (generate_purity_host_name "my host!".toList
        "0123456789abcdef0123456789abcdef".toList =
      ((("my host!".toList.take 23).map
          (fun c => if isAllowedChar c then c else '-')).dropWhile
          (fun c => c == '-')) ++
        ('-' :: "0123456789abcdef0123456789abcdef".toList) ++
        ('-' :: ['c', 'i', 'n', 'd', 'e', 'r']) ∧
      generatedNameMatchL (generate_purity_host_name "my host!".toList
        "0123456789abcdef0123456789abcdef".toList) = true) :=
  ⟨⟨by decide, by decide⟩,
    generate_purity_host_name_spec "my host!".toList
      "0123456789abcdef0123456789abcdef".toList (by decide) (by decide)⟩

/-- C10: `delete_snapshot` swallows any `PureAPIException` whose code is
400 regardless of its message and re-raises every other code, while
`delete_volume` swallows a code-400 error only when its message contains
"Volume does not exist", re-raising every other error unchanged. -/
theorem delete_swallow_code400 (code : Nat) (msg : String) :
    delete_snapshot (Except.error (PureErr.apiError (some code) msg)) =
      (if code = 400 then Except.ok ()
       else Except.error (PureErr.apiError (some code) msg)) ∧
    delete_volume (Except.error (PureErr.apiError (some code) msg)) =
      (if code = 400 ∧ msgHasVolumeDoesNotExist msg = true then Except.ok ()
       else Except.error (PureErr.apiError (some code) msg)) := by
  constructor
  · by_cases h : code = 400 <;> simp [delete_snapshot, h]
  · by_cases h : code = 400
    · by_cases h2 : msgHasVolumeDoesNotExist msg = true <;>
        simp [delete_volume, h, h2]
    · simp [delete_volume, h]
